import Mathlib

/-!
Verification development for the pointercrate demonlist core.

Shallow embedding of:
  * `Demon::create_from` (src/model/demon/post.rs) — the transactional create
    operation for demonlist entries;
  * `dropdowns` (src/view/demonlist.rs) — the Main/Extended/Legacy list
    segmentation;
  * `overview_demons` and the `index` handler (src/view/demonlist/overview.rs)
    — the live and historical ("time machine") read paths.

Database tables are modelled as Lean lists, SQL rows as structures, and
fallible Rust functions as `Except`-returning Lean functions.  Functions of
the repository whose bodies are not among the verified sources (validators,
`Player::get`, `Demon::shift_down`, `Creator::create_from`, `video::validate`,
the SQL function `list_at`) are modelled from the specification; each such
definition carries a doc comment starting with `Modelled from the spec:`.
-/

set_option maxRecDepth 10000

deriving instance DecidableEq for Except

namespace Pointercrate

/-- The caller-visible error taxonomy of the repository
(`Conflict`, `OutOfRange`, `NotFound`, `InvalidFormat`). -/
inductive Error where
  | conflict
  | outOfRange
  | notFound
  | invalidFormat
deriving DecidableEq

/-- A row of the `players` table (the fields used by the verified sources:
id, name, and the `link_banned` flag consulted by the overview query). -/
structure PlayerRow where
  id : Nat
  name : String
  link_banned : Bool
deriving DecidableEq

/-- A row of the `demons` table.  `position = none` models the SQL `NULL`
position of a retired entry (the live overview filters on
`position IS NOT NULL`). -/
structure DemonRow where
  id : Nat
  name : String
  position : Option Int
  requirement : Int
  verifier : Nat
  publisher : Nat
  video : Option String
deriving DecidableEq

/-- An audit fact, per the spec's persisted audit shape
`{entry_id, effective_position (nullable), valid_from}`. -/
structure AuditFact where
  demon : Nat
  position : Option Int
  valid_from : Int
deriving DecidableEq

/-- The repository state: the tables touched by the verified operations.
`creators` holds the demon-name/player-id creator links. -/
structure DB where
  demons : List DemonRow
  players : List PlayerRow
  creators : List (String × Nat)
  facts : List AuditFact
deriving DecidableEq

/-- The deserialized `PostDemon` draft from src/model/demon/post.rs.
`CiString` fields are plain strings compared case-insensitively. -/
structure PostDemon where
  name : String
  position : Int
  requirement : Int
  verifier : String
  publisher : String
  creators : List String
  video : Option String
deriving DecidableEq

/-- The `Demon` value returned to the caller by `Demon::create_from`
(src/model/demon/post.rs, lines 73-80). -/
structure Demon where
  name : String
  position : Int
  requirement : Int
  video : Option String
  publisher : PlayerRow
  verifier : PlayerRow
deriving DecidableEq

/-- ASCII lowercasing of a character, for `CiString` comparisons. -/
def lowerChar (c : Char) : Char :=
  if 65 ≤ c.toNat ∧ c.toNat ≤ 90 then Char.ofNat (c.toNat + 32) else c

/-- Case-insensitive string equality (`CiString` / Postgres `citext`
comparison semantics). -/
def ciEq (a b : String) : Bool :=
  a.data.map lowerChar == b.data.map lowerChar

/-- `s` starts with the prefix string `pre`. -/
def strStartsWith (s pre : String) : Bool :=
  s.data.take pre.data.length == pre.data

/-- The string `s` without its first `n` characters. -/
def strDrop (s : String) (n : Nat) : String :=
  String.mk (s.data.drop n)

/-- Case-insensitive lookup of a player by name (`CiString` natural-key
resolution). -/
def findPlayerByName (db : DB) (name : String) : Option PlayerRow :=
  db.players.find? (fun p => ciEq p.name name)

/-- Lookup of a player row by id (the `INNER JOIN players` of the overview
queries). -/
def findPlayerById (db : DB) (i : Nat) : Option PlayerRow :=
  db.players.find? (fun p => p.id == i)

/-- Modelled from the spec: `Player::get` (actor resolution, not among the
verified sources) resolves a publisher/verifier reference by natural-key
lookup and fails with `NotFound` if unresolvable. -/
def Player.get (name : String) (db : DB) : Except Error PlayerRow :=
  match findPlayerByName db name with
  | some p => Except.ok p
  | none => Except.error Error.notFound

/-- The active entries: rows whose position is not `NULL`. -/
def activeDemons (db : DB) : List DemonRow :=
  db.demons.filter (fun d => d.position.isSome)

/-- Modelled from the spec: `Demon::validate_requirement` (not among the
verified sources) fails with `OutOfRange` unless `0 ≤ r ≤ 100`; out-of-range
values are rejected, never clamped. -/
def Demon.validate_requirement (r : Int) : Except Error Unit :=
  if 0 ≤ r ∧ r ≤ 100 then Except.ok () else Except.error Error.outOfRange

/-- Modelled from the spec: `Demon::validate_name` (not among the verified
sources) performs a case-insensitive lookup against all active entries and
fails with `Conflict` on a match. -/
def Demon.validate_name (name : String) (db : DB) : Except Error Unit :=
  if (activeDemons db).any (fun d => ciEq d.name name) then
    Except.error Error.conflict
  else
    Except.ok ()

/-- Modelled from the spec: `Demon::validate_position` (not among the
verified sources) fails with `OutOfRange` unless
`1 ≤ pos ≤ current_count + 1`, the `+1` allowing a tail append. -/
def Demon.validate_position (pos : Int) (db : DB) : Except Error Unit :=
  if 1 ≤ pos ∧ pos ≤ ((activeDemons db).length : Int) + 1 then
    Except.ok ()
  else
    Except.error Error.outOfRange

/-- Modelled from the spec: `video::validate` (not among the verified
sources) fails with `InvalidFormat` unless the URL is a well-formed URL of a
recognized video host, and on success returns a normalized canonical form.
We model recognition of the two YouTube URL shapes, canonicalizing the short
form — enough to exhibit that normalization can change the URL. -/
def video.validate (url : String) : Except Error String :=
  if strStartsWith url "https://www.youtube.com/watch?v=" then
    Except.ok url
  else if strStartsWith url "https://youtu.be/" then
    Except.ok ("https://www.youtube.com/watch?v=" ++ strDrop url 17)
  else
    Except.error Error.invalidFormat

/-- The `match data.video { Some(v) => Some(video::validate(v)?), None => None }`
step of `Demon::create_from` (src/model/demon/post.rs, lines 42-45). -/
def validateVideoOpt : Option String → Except Error (Option String)
  | some v => (video.validate v).map some
  | none => Except.ok none

/-- Modelled from the spec: `Demon::shift_down(threshold_position)` (not
among the verified sources) increments, within the active transaction, the
position of every active entry whose position is `≥ threshold_position` by
exactly 1, computed from a stable pre-shift read. -/
def Demon.shift_down (p : Int) (db : DB) : DB :=
  { db with
    demons := db.demons.map (fun d =>
      match d.position with
      | some q => if p ≤ q then { d with position := some (q + 1) } else d
      | none => d) }

/-- A fresh id for the inserted row (the serial primary key assigned by the
database on `insert_into(demons::table)`). -/
def freshDemonId (db : DB) : Nat :=
  (db.demons.map (fun d => d.id)).foldr max 0 + 1

/-- Modelled from the spec: `Creator::create_from((demon_name, creator_name))`
(not among the verified sources) resolves the creator actor reference by
natural-key lookup (failing with `NotFound` if unresolvable) and inserts the
creator link. -/
def Creator.create_from (demonName creatorName : String) (db : DB) : Except Error DB :=
  match findPlayerByName db creatorName with
  | some p => Except.ok { db with creators := db.creators ++ [(demonName, p.id)] }
  | none => Except.error Error.notFound

/-- The `for creator in &data.creators { Creator::create_from(..)? }` loop of
`Demon::create_from` (src/model/demon/post.rs, lines 69-71). -/
def insertCreators (demonName : String) : List String → DB → Except Error DB
  | [], db => Except.ok db
  | c :: rest, db =>
    match Creator.create_from demonName c db with
    | Except.ok db1 => insertCreators demonName rest db1
    | Except.error e => Except.error e

/-- The `NewDemon` row built in `Demon::create_from`
(src/model/demon/post.rs, lines 54-61), with the fresh serial id the
database assigns on insert.  `videoN` is the normalized video URL. -/
def newDemonRow (data : PostDemon) (videoN : Option String) (pub ver : Nat)
    (db : DB) : DemonRow :=
  { id := freshDemonId db
    name := data.name
    position := some data.position
    requirement := data.requirement
    verifier := ver
    publisher := pub
    video := videoN }

/-- The state after `Demon::shift_down` followed by
`insert_into(demons::table)` (src/model/demon/post.rs, lines 63-67): the
shift runs strictly before the new row is written. -/
def insertedDB (data : PostDemon) (videoN : Option String) (pub ver : Nat)
    (db : DB) : DB :=
  { Demon.shift_down data.position db with
    demons := (Demon.shift_down data.position db).demons ++
      [newDemonRow data videoN pub ver db] }

/-- The closure passed to `connection.transaction(|| ...)` in
`Demon::create_from` (src/model/demon/post.rs, lines 47-81): name and
position validation, publisher/verifier resolution, the shift, the row
insert, the creator-link inserts, and the returned `Demon` value.  `videoN`
is the normalized video URL computed before the transaction. -/
def createClosure (data : PostDemon) (videoN : Option String) (db : DB) :
    Except Error (Demon × DB) :=
  match Demon.validate_name data.name db with
  | Except.error e => Except.error e
  | Except.ok _ =>
  match Demon.validate_position data.position db with
  | Except.error e => Except.error e
  | Except.ok _ =>
  match Player.get data.publisher db with
  | Except.error e => Except.error e
  | Except.ok publisher =>
  match Player.get data.verifier db with
  | Except.error e => Except.error e
  | Except.ok verifier =>
  match insertCreators data.name data.creators
      (insertedDB data videoN publisher.id verifier.id db) with
  | Except.error e => Except.error e
  | Except.ok db3 =>
    Except.ok
      ({ name := data.name
         position := data.position
         requirement := data.requirement
         video := data.video
         publisher := publisher
         verifier := verifier }, db3)

/-- Diesel's `connection.transaction(|| ...)`: run the body against the
current state; commit its final state on `Ok`, roll the state back to the
pre-transaction state on `Err`. -/
def transact {α : Type} (db : DB) (f : DB → Except Error (α × DB)) :
    Except Error α × DB :=
  match f db with
  | Except.ok (a, db1) => (Except.ok a, db1)
  | Except.error e => (Except.error e, db)

/-- `Demon::create_from` (src/model/demon/post.rs, lines 37-82): requirement
validation and video validation outside the transaction, then the
transactional closure.  Returns the caller-visible result together with the
repository state after the call. -/
def Demon.create_from (data : PostDemon) (db : DB) : Except Error Demon × DB :=
  match Demon.validate_requirement data.requirement with
  | Except.error e => (Except.error e, db)
  | Except.ok _ =>
  match validateVideoOpt data.video with
  | Except.error e => (Except.error e, db)
  | Except.ok videoN => transact db (createClosure data videoN)

/-- The `OverviewDemon` row shape of src/view/demonlist/overview.rs
(lines 17-25). -/
structure OverviewDemon where
  id : Nat
  position : Int
  name : String
  publisher : String
  video : Option String
  current_position : Option Int
deriving DecidableEq

/-- Rust slice `&xs[a..]`: defined only when `a ≤ xs.len()`, out-of-bounds
indexing panics (`none`). -/
def rustSliceFrom {α : Type} (xs : List α) (a : Nat) : Option (List α) :=
  if a ≤ xs.length then some (xs.drop a) else none

/-- Rust slice `&xs[..b]`: defined only when `b ≤ xs.len()`, out-of-bounds
indexing panics (`none`). -/
def rustSliceTo {α : Type} (xs : List α) (b : Nat) : Option (List α) :=
  if b ≤ xs.length then some (xs.take b) else none

/-- Rust slice `&xs[a..b]`: defined only when `a ≤ b ≤ xs.len()`,
out-of-bounds or inverted ranges panic (`none`). -/
def rustSlice {α : Type} (xs : List α) (a b : Nat) : Option (List α) :=
  if a ≤ b ∧ b ≤ xs.length then some ((xs.drop a).take (b - a)) else none

/-- The segmentation logic of `dropdowns` (src/view/demonlist.rs, lines
49-63): the Main/Extended/Legacy triple of slices of the ordered active
entries, with `list_size` and `extended_size` the two configured thresholds.
`none` models a slice-indexing panic. -/
def dropdowns (all : List OverviewDemon) (list_size extended_size : Nat) :
    Option (List OverviewDemon × List OverviewDemon × List OverviewDemon) :=
  if all.length < list_size then
    some (all, [], [])
  else
    match
      (if all.length < extended_size then
        match rustSliceFrom all list_size with
        | some ext => some (ext, ([] : List OverviewDemon))
        | none => none
      else
        match rustSlice all list_size extended_size, rustSliceFrom all extended_size with
        | some ext, some leg => some (ext, leg)
        | _, _ => none) with
    | none => none
    | some (ext, leg) =>
      match rustSliceTo all list_size with
      | some main => some (main, ext, leg)
      | none => none

/-- Insertion step of the stable sort used to model SQL `ORDER BY`. -/
def insertLe {α : Type} (le : α → α → Bool) (x : α) : List α → List α
  | [] => [x]
  | y :: ys => if le x y then x :: y :: ys else y :: insertLe le x ys

/-- Stable sort used to model SQL `ORDER BY`. -/
def sortLe {α : Type} (le : α → α → Bool) (xs : List α) : List α :=
  xs.foldr (insertLe le) []

/-- The live overview query of `overview_demons` with `at = None`
(src/view/demonlist/overview.rs, lines 41-48): active demons ordered by
position, joined with publisher and verifier players, video nulled when the
verifier is link-banned, and `null::smallint as current_position`. -/
def liveOverview (db : DB) : List OverviewDemon :=
  (sortLe (fun a b => a.position.getD 0 ≤ b.position.getD 0) (activeDemons db)).filterMap
    (fun d =>
      match d.position, findPlayerById db d.publisher, findPlayerById db d.verifier with
      | some q, some pub, some ver =>
        some
          { id := d.id
            position := q
            name := d.name
            publisher := pub.name
            video := if ver.link_banned then none else d.video
            current_position := none }
      | _, _, _ => none)

/-- The most recent audit fact for entry `i` with `valid_from ≤ t`. -/
def latestFactAt (facts : List AuditFact) (i : Nat) (t : Int) : Option AuditFact :=
  (facts.filter (fun f => f.demon == i && decide (f.valid_from ≤ t))).foldl
    (fun acc f =>
      match acc with
      | none => some f
      | some g => if g.valid_from ≤ f.valid_from then some f else some g)
    none

/-- Modelled from the spec: the SQL function `list_at(t)` (not among the
verified sources) selects, for each entry, the most recent audit fact with
`valid_from ≤ t`, filters out entries whose effective position at that time
is null, and pairs each surviving entry with its historical position and its
current (nullable) live position. -/
def list_at (db : DB) (t : Int) : List (DemonRow × Int × Option Int) :=
  db.demons.filterMap (fun d =>
    match latestFactAt db.facts d.id t with
    | some f =>
      match f.position with
      | some q => some (d, q, d.position)
      | none => none
    | none => none)

/-- The historical overview query of `overview_demons` with `at = Some(t)`
(src/view/demonlist/overview.rs, lines 49-56): `list_at(t)` ordered by the
historical position, joined with publisher and verifier players, carrying
the `current_position` annotation through. -/
def histOverview (db : DB) (t : Int) : List OverviewDemon :=
  (sortLe (fun a b => a.2.1 ≤ b.2.1) (list_at db t)).filterMap
    (fun r =>
      match findPlayerById db r.1.publisher, findPlayerById db r.1.verifier with
      | some pub, some ver =>
        some
          { id := r.1.id
            position := r.2.1
            name := r.1.name
            publisher := pub.name
            video := if ver.link_banned then none else r.1.video
            current_position := r.2.2 }
      | _, _ => none)

/-- `overview_demons` (src/view/demonlist/overview.rs, lines 39-59): the
live query when no historical instant is given, the `list_at` query
otherwise. -/
def overview_demons (db : DB) (at_ : Option Int) : List OverviewDemon :=
  match at_ with
  | none => liveOverview db
  | some t => histOverview db t

/-- The `EARLIEST_DATE` constant of the `index` handler
(src/view/demonlist/overview.rs, line 150): 2017-01-04T00:00:00Z, here as
seconds since the Unix epoch. -/
def EARLIEST_DATE : Int := 1483488000

/-- The "when" computation of the `index` handler
(src/view/demonlist/overview.rs, lines 154-167).  `cookie` is the parse
result of the "when" cookie when present (`Except.error` modelling an RFC
3339 parse failure), `now` the current time; match arms in source order:
clamp below `EARLIEST_DATE`, drop to the live path at or after `now`,
otherwise keep, and drop to the live path on a parse failure. -/
def computeWhen (cookie : Option (Except Unit Int)) (now : Int) : Option Int :=
  match cookie with
  | some (Except.ok w) =>
    if w < EARLIEST_DATE then some EARLIEST_DATE
    else if now ≤ w then none
    else some w
  | some (Except.error _) => none
  | none => none

/-- The demon overview served by the `index` handler: `overview_demons`
applied to the computed "when" (src/view/demonlist/overview.rs, lines
147-175 together with `DemonlistOverview::load`). -/
def indexOverview (db : DB) (cookie : Option (Except Unit Int)) (now : Int) :
    List OverviewDemon :=
  overview_demons db (computeWhen cookie now)

/-! ## Segmentation: characterization and the claims about `dropdowns` -/

/-- With ascending thresholds, `dropdowns` never hits an out-of-bounds slice
and produces exactly the take/drop decomposition of the input. -/
theorem dropdowns_eq_of_le (all : List OverviewDemon) (m e : Nat) (h : m ≤ e) :
    dropdowns all m e = some (all.take m, (all.take e).drop m, all.drop e) := by
  unfold dropdowns
  by_cases h1 : all.length < m
  · rw [if_pos h1]
    have hle : all.length ≤ m := Nat.le_of_lt h1
    rw [List.take_of_length_le hle, List.take_of_length_le (hle.trans h),
      List.drop_eq_nil_iff.mpr hle, List.drop_eq_nil_iff.mpr (hle.trans h)]
  · rw [if_neg h1]
    have hm : m ≤ all.length := Nat.le_of_not_lt h1
    by_cases h2 : all.length < e
    · rw [if_pos h2]
      unfold rustSliceFrom rustSliceTo
      rw [if_pos hm, if_pos hm]
      have hle : all.length ≤ e := Nat.le_of_lt h2
      rw [List.take_of_length_le hle, List.drop_eq_nil_iff.mpr hle]
    · rw [if_neg h2]
      have he : e ≤ all.length := Nat.le_of_not_lt h2
      unfold rustSlice rustSliceFrom rustSliceTo
      rw [if_pos ⟨h, he⟩, if_pos he, if_pos hm]
      have h3 : (all.take e).drop m = (all.drop m).take (e - m) := by
        rw [List.take_drop, Nat.add_sub_cancel' h]
      rw [h3]

/-- A sample active entry, used to instantiate universally quantified
theorems at concrete inputs. -/
def sampleDemon (i : Nat) : OverviewDemon :=
  { id := i
    position := Int.ofNat i
    name := "demon"
    publisher := "pub"
    video := none
    current_position := none }

/-- Five active entries ranked 1..5, the scenario used by the spec. -/
def fiveDemons : List OverviewDemon :=
  [sampleDemon 1, sampleDemon 2, sampleDemon 3, sampleDemon 4, sampleDemon 5]

/-- Claim C2: for every ordered sequence of N active entries and every pair
of (ascending) thresholds, `dropdowns` segmentation produces three disjoint,
order-preserving slices — Main = positions [1, main_size], Extended =
positions (main_size, extended_size], Legacy = positions (extended_size, N]
— whose lengths sum to exactly N. -/
theorem segmentation_partition (all : List OverviewDemon) (m e : Nat) (h : m < e) :
    ∃ main ext leg,
      dropdowns all m e = some (main, ext, leg) ∧
      main = all.take m ∧
      ext = (all.take e).drop m ∧
      leg = all.drop e ∧
      main ++ (ext ++ leg) = all ∧
      main.length + ext.length + leg.length = all.length := by
  refine ⟨all.take m, (all.take e).drop m, all.drop e,
    dropdowns_eq_of_le all m e (Nat.le_of_lt h), rfl, rfl, rfl, ?_, ?_⟩
  · have h2 : all.drop e = (all.drop m).drop (e - m) := by
      rw [List.drop_drop, Nat.add_sub_cancel' (Nat.le_of_lt h)]
    have h3 : (all.take e).drop m = (all.drop m).take (e - m) := by
      rw [List.take_drop, Nat.add_sub_cancel' (Nat.le_of_lt h)]
    rw [h2, h3, List.take_append_drop, List.take_append_drop]
  · rw [List.length_take, List.length_drop, List.length_drop, List.length_take]
    omega

/-- Witness for C2: the spec scenario — thresholds (2,4) on the active
entries ranked 1..5 yield Main = [1,2], Extended = [3,4], Legacy = [5]. -/
theorem segmentation_partition_witness :
    2 < 4 ∧
    ∃ main ext leg,
      dropdowns fiveDemons 2 4 = some (main, ext, leg) ∧
      main = fiveDemons.take 2 ∧
      ext = (fiveDemons.take 4).drop 2 ∧
      leg = fiveDemons.drop 4 ∧
      main ++ (ext ++ leg) = fiveDemons ∧
      main.length + ext.length + leg.length = fiveDemons.length :=
  ⟨by decide, segmentation_partition fiveDemons 2 4 (by decide)⟩

/-- Claim C7: with ascending thresholds, segmentation of fewer entries than
`main_size` (Main = all entries, Extended and Legacy empty) or fewer than
`extended_size` (Legacy empty) completes without any out-of-bounds slice. -/
theorem segmentation_in_bounds (all : List OverviewDemon) (m e : Nat)
    (h : m < e) (hN : all.length < e) :
    (dropdowns all m e).isSome ∧
    (all.length < m → dropdowns all m e = some (all, [], [])) ∧
    ∃ main ext, dropdowns all m e = some (main, ext, []) := by
  have hc := dropdowns_eq_of_le all m e (Nat.le_of_lt h)
  refine ⟨by rw [hc]; rfl, ?_, ?_⟩
  · intro hm
    have hle : all.length ≤ m := Nat.le_of_lt hm
    rw [hc, List.take_of_length_le hle, List.take_of_length_le (Nat.le_of_lt hN),
      List.drop_eq_nil_iff.mpr hle, List.drop_eq_nil_iff.mpr (Nat.le_of_lt hN)]
  · exact ⟨all.take m, (all.take e).drop m, by
      rw [hc, List.drop_eq_nil_iff.mpr (Nat.le_of_lt hN)]⟩

/-- Witness for C7: five entries with thresholds (7, 9) — fewer entries than
both thresholds — segment without an out-of-bounds slice. -/
theorem segmentation_in_bounds_witness :
    7 < 9 ∧ fiveDemons.length < 9 ∧
    ((dropdowns fiveDemons 7 9).isSome ∧
      (fiveDemons.length < 7 → dropdowns fiveDemons 7 9 = some (fiveDemons, [], [])) ∧
      ∃ main ext, dropdowns fiveDemons 7 9 = some (main, ext, [])) :=
  ⟨by decide, by decide, segmentation_in_bounds fiveDemons 7 9 (by decide) (by decide)⟩

/-! ## Overview read paths: the claims about `overview_demons` and `index` -/

/-- Every row produced by the live overview query carries
`current_position = none`: the query selects a constant SQL `NULL` for that
column. -/
theorem mem_liveOverview_current_position {db : DB} {d : OverviewDemon}
    (h : d ∈ liveOverview db) : d.current_position = none := by
  unfold liveOverview at h
  rw [List.mem_filterMap] at h
  obtain ⟨a, _, hfa⟩ := h
  split at hfa
  · rw [Option.some.injEq] at hfa
    rw [← hfa]
  · exact Option.noConfusion hfa

/-- A one-entry repository: a single active demon "Old" at position 1,
published and verified by player "P". -/
def dbOne : DB :=
  { demons := [{ id := 1, name := "Old", position := some 1, requirement := 50,
                 verifier := 1, publisher := 1, video := none }]
    players := [{ id := 1, name := "P", link_banned := false }]
    creators := []
    facts := [] }

/-- The single row the live overview query returns on `dbOne`. -/
def dbOneRow : OverviewDemon :=
  { id := 1
    position := 1
    name := "Old"
    publisher := "P"
    video := none
    current_position := none }

/-- Claim C8: in the live (non-historical) read path, every entry returned
by the overview query has its current-position field equal to `none` (the
query selects `null::smallint as current_position`), regardless of the
entry's actual live position. -/
theorem live_current_position_none (db : DB) (d : OverviewDemon)
    (h : d ∈ overview_demons db none) : d.current_position = none := by
  unfold overview_demons at h
  exact mem_liveOverview_current_position h

/-- Witness for C8: the live overview of `dbOne` contains `dbOneRow`, whose
current-position field is `none` even though the entry is live at
position 1. -/
theorem live_current_position_none_witness :
    dbOneRow ∈ overview_demons dbOne none ∧ dbOneRow.current_position = none :=
  ⟨by decide, live_current_position_none dbOne dbOneRow (by decide)⟩

/-- Claim C10: every "when" cookie value that fails to parse as an RFC 3339
timestamp is served from the live current-state path, with no historical
view and no error surfaced to the caller (the `_ => None` match arm of
`index`). -/
theorem malformed_when_cookie_live (db : DB) (e : Unit) (now : Int) :
    indexOverview db (some (Except.error e)) now = overview_demons db none := rfl

/-- Claim C3 counterexample: at timestamp 1700000000 (at or after the
current time 1600000000) the request short-circuits to the live path, but
the returned entry's current-position field is `none`, while that entry's
live position is 1 — the annotation does not match the live position. -/
theorem reconstruct_now_counterexample :
    (indexOverview dbOne (some (Except.ok 1700000000)) 1600000000).map
        (fun d => d.current_position) = [none] ∧
    dbOne.demons.map (fun d => d.position) = [some 1] ∧
    (none : Option Int) ≠ some 1 :=
  ⟨by decide, by decide, by decide⟩

/-- Claim C3 (amended, proved): for every timestamp at or after the current
time (and not before the supported boundary date), the overview
short-circuits to the live read path and returns exactly the result of the
live `overview_demons` query; in that result every current-position field is
`none` rather than the entry's live position. -/
theorem reconstruct_at_or_after_now_live (db : DB) (t now : Int)
    (hE : EARLIEST_DATE ≤ t) (hnow : now ≤ t) :
    indexOverview db (some (Except.ok t)) now = overview_demons db none ∧
    ∀ d, d ∈ indexOverview db (some (Except.ok t)) now → d.current_position = none := by
  have hw : computeWhen (some (Except.ok t)) now = none := by
    show (if t < EARLIEST_DATE then some EARLIEST_DATE
      else if now ≤ t then none else some t) = none
    rw [if_neg (not_lt.mpr hE), if_pos hnow]
  constructor
  · unfold indexOverview
    rw [hw]
  · intro d hd
    unfold indexOverview at hd
    rw [hw] at hd
    unfold overview_demons at hd
    exact mem_liveOverview_current_position hd

/-- Witness for the amended C3: on `dbOne`, a request for 1700000000 with
current time 1600000000 is served from the live path with all
current-position fields `none`. -/
theorem reconstruct_at_or_after_now_live_witness :
    EARLIEST_DATE ≤ (1700000000 : Int) ∧ (1600000000 : Int) ≤ 1700000000 ∧
    (indexOverview dbOne (some (Except.ok 1700000000)) 1600000000 =
        overview_demons dbOne none ∧
      ∀ d, d ∈ indexOverview dbOne (some (Except.ok 1700000000)) 1600000000 →
        d.current_position = none) :=
  ⟨by decide, by decide,
    reconstruct_at_or_after_now_live dbOne 1700000000 1600000000 (by decide) (by decide)⟩

/-- A repository whose earliest recorded audit fact is at 1600000000,
strictly later than the boundary date `EARLIEST_DATE`. -/
def dbLateFacts : DB :=
  { demons := [{ id := 1, name := "Old", position := some 1, requirement := 50,
                 verifier := 1, publisher := 1, video := none }]
    players := [{ id := 1, name := "P", link_banned := false }]
    creators := []
    facts := [{ demon := 1, position := some 1, valid_from := 1600000000 }] }

/-- Claim C5 counterexample: timestamp 1500000000 is strictly before the
earliest recorded audit fact of `dbLateFacts` (1600000000), yet the `index`
handler does not clamp it to the boundary date: the computed "when" is the
timestamp itself, not `EARLIEST_DATE` — the code clamps only timestamps
before the constant boundary date, not timestamps before the earliest
fact. -/
theorem pre_fact_clamp_counterexample :
    dbLateFacts.facts.map (fun f => f.valid_from) = [1600000000] ∧
    (1500000000 : Int) < 1600000000 ∧
    computeWhen (some (Except.ok 1500000000)) 1700000000 = some 1500000000 ∧
    (1500000000 : Int) ≠ EARLIEST_DATE :=
  ⟨by decide, by decide, by decide, by decide⟩

/-- Claim C5 (amended, proved): for every timestamp strictly before the
boundary date (January 4th 2017), the `index` handler clamps the timestamp
to the boundary date and serves the historical reconstruction at that date —
a total function into lists of rows, so a (possibly empty) sequence and
never an error. -/
theorem pre_boundary_clamped (db : DB) (t now : Int) (h : t < EARLIEST_DATE) :
    computeWhen (some (Except.ok t)) now = some EARLIEST_DATE ∧
    indexOverview db (some (Except.ok t)) now = histOverview db EARLIEST_DATE := by
  have hw : computeWhen (some (Except.ok t)) now = some EARLIEST_DATE := by
    show (if t < EARLIEST_DATE then some EARLIEST_DATE
      else if now ≤ t then none else some t) = some EARLIEST_DATE
    rw [if_pos h]
  refine ⟨hw, ?_⟩
  unfold indexOverview
  rw [hw]
  rfl

/-- Witness for the amended C5: timestamp 0 (1970) is clamped to the
boundary date on `dbLateFacts`, and the served reconstruction is the one at
the boundary date (here the empty sequence, not an error). -/
theorem pre_boundary_clamped_witness :
    (0 : Int) < EARLIEST_DATE ∧
    (computeWhen (some (Except.ok 0)) 1700000000 = some EARLIEST_DATE ∧
      indexOverview dbLateFacts (some (Except.ok 0)) 1700000000 =
        histOverview dbLateFacts EARLIEST_DATE) :=
  ⟨by decide, pre_boundary_clamped dbLateFacts 0 1700000000 (by decide)⟩

/-! ## The create operation: rollback, actor resolution, shift, video -/

/-- Inserting creator links touches only the `creators` table: the `demons`
table is unchanged. -/
theorem insertCreators_demons (n : String) :
    ∀ (cs : List String) (db db1 : DB),
      insertCreators n cs db = Except.ok db1 → db1.demons = db.demons := by
  intro cs
  induction cs with
  | nil =>
    intro db db1 h
    unfold insertCreators at h
    rw [Except.ok.injEq] at h
    rw [← h]
  | cons c rest ih =>
    intro db db1 h
    unfold insertCreators at h
    cases hc : Creator.create_from n c db with
    | ok db2 =>
      rw [hc] at h
      have h2 := ih db2 db1 h
      rw [h2]
      unfold Creator.create_from at hc
      cases hp : findPlayerByName db c with
      | some p =>
        rw [hp, Except.ok.injEq] at hc
        rw [← hc]
      | none =>
        rw [hp] at hc
        exact Except.noConfusion hc
    | error e =>
      rw [hc] at h
      exact Except.noConfusion h

/-- Shape of a successful create: requirement and video validation passed,
the returned `Demon` carries the draft's fields (the video URL verbatim),
and the final `demons` table is the pre-state table shifted down at the
draft's position with the new row — carrying the normalized video —
appended. -/
theorem create_success_shape (data : PostDemon) (db : DB) (dem : Demon) (db1 : DB)
    (h : Demon.create_from data db = (Except.ok dem, db1)) :
    ∃ vn row,
      validateVideoOpt data.video = Except.ok vn ∧
      dem.video = data.video ∧
      dem.name = data.name ∧
      dem.position = data.position ∧
      row.position = some data.position ∧
      row.video = vn ∧
      row.name = data.name ∧
      row.id = freshDemonId db ∧
      db1.demons = (Demon.shift_down data.position db).demons ++ [row] := by
  unfold Demon.create_from transact at h
  split at h
  · rw [Prod.mk.injEq] at h
    exact Except.noConfusion h.1
  · split at h
    · rw [Prod.mk.injEq] at h
      exact Except.noConfusion h.1
    · rename_i vn hv
      split at h
      · rename_i p a dbA hc
        rw [Prod.mk.injEq, Except.ok.injEq] at h
        obtain ⟨hdem, hdb⟩ := h
        unfold createClosure at hc
        split at hc
        · exact Except.noConfusion hc
        · split at hc
          · exact Except.noConfusion hc
          · split at hc
            · exact Except.noConfusion hc
            · rename_i publisher hpub
              split at hc
              · exact Except.noConfusion hc
              · rename_i verifier hver
                split at hc
                · exact Except.noConfusion hc
                · rename_i db3 hic
                  rw [Except.ok.injEq, Prod.mk.injEq] at hc
                  obtain ⟨ha, hdb3⟩ := hc
                  refine ⟨vn, newDemonRow data vn publisher.id verifier.id db,
                    hv, ?_, ?_, ?_, rfl, rfl, rfl, rfl, ?_⟩
                  · rw [← hdem, ← ha]
                  · rw [← hdem, ← ha]
                  · rw [← hdem, ← ha]
                  · rw [← hdb, ← hdb3]
                    exact insertCreators_demons data.name data.creators _ db3 hic
      · rw [Prod.mk.injEq] at h
        exact Except.noConfusion h.1

/-- Every call to `Demon::create_from` either succeeds, or fails leaving the
repository state exactly as it was: the pre-transaction validations are
pure, and the transaction rolls back on every error path. -/
theorem create_from_cases (data : PostDemon) (db : DB) :
    (∃ dem db1, Demon.create_from data db = (Except.ok dem, db1)) ∨
    (∃ e, Demon.create_from data db = (Except.error e, db)) := by
  unfold Demon.create_from transact
  split
  · exact Or.inr ⟨_, rfl⟩
  · split
    · exact Or.inr ⟨_, rfl⟩
    · split
      · exact Or.inl ⟨_, _, rfl⟩
      · exact Or.inr ⟨_, rfl⟩

/-- Claim C1: if any step of the create operation fails (requirement
validation, video validation, name validation, position validation,
publisher/verifier resolution, the shift, the row insert, or any
creator-link insert), the entire transaction is rolled back and no partial
creation is observable — the repository state after a failed create equals
the state before it. -/
theorem create_failure_rolls_back (data : PostDemon) (db : DB) (e : Error)
    (h : (Demon.create_from data db).1 = Except.error e) :
    (Demon.create_from data db).2 = db := by
  rcases create_from_cases data db with ⟨dem, db1, heq⟩ | ⟨e1, heq⟩
  · rw [heq] at h
    exact Except.noConfusion h
  · rw [heq]

/-- A valid draft "New" at position 1, publisher and verifier "P", with a
short-form video URL. -/
def draftNew : PostDemon :=
  { name := "New"
    position := 1
    requirement := 90
    verifier := "P"
    publisher := "P"
    creators := []
    video := some "https://youtu.be/abc" }

/-- `draftNew` with a creator name that resolves to no player: every
validation passes, the shift and the row insert execute, and only the
creator-link insert fails — deep inside the transaction. -/
def draftGhostCreator : PostDemon :=
  { draftNew with creators := ["Ghost"] }

/-- `draftNew` with an unresolvable publisher (and no video). -/
def draftNoPublisher : PostDemon :=
  { draftNew with publisher := "Nobody", video := none }

/-- Witness for C1: on `dbOne`, `draftGhostCreator` fails at the very last
step (the creator-link insert, after the shift and the row insert have
already executed), and the repository state is rolled back to `dbOne`. -/
theorem create_failure_rolls_back_witness :
    (Demon.create_from draftGhostCreator dbOne).1 = Except.error Error.notFound ∧
    (Demon.create_from draftGhostCreator dbOne).2 = dbOne :=
  ⟨by decide, create_failure_rolls_back draftGhostCreator dbOne Error.notFound (by decide)⟩

/-- Claim C6: a create draft whose publisher or verifier name does not
resolve to an existing actor fails with `NotFound`, and no entry is
inserted (the repository state is unchanged) — stated for drafts that pass
the validations that run before actor resolution. -/
theorem create_unresolvable_actor_not_found (data : PostDemon) (db : DB)
    (hreq : Demon.validate_requirement data.requirement = Except.ok ())
    (hvid : ∃ vn, validateVideoOpt data.video = Except.ok vn)
    (hname : Demon.validate_name data.name db = Except.ok ())
    (hpos : Demon.validate_position data.position db = Except.ok ())
    (hact : findPlayerByName db data.publisher = none ∨
      findPlayerByName db data.verifier = none) :
    Demon.create_from data db = (Except.error Error.notFound, db) := by
  obtain ⟨vn, hvid⟩ := hvid
  unfold Demon.create_from
  rw [hreq, hvid]
  show transact db (createClosure data vn) = (Except.error Error.notFound, db)
  unfold transact createClosure Player.get
  rw [hname, hpos]
  rcases hact with hp | hv2
  · rw [hp]
  · cases hp2 : findPlayerByName db data.publisher with
    | none => rfl
    | some p => rw [hv2]

/-- Witness for C6: `draftNoPublisher` on `dbOne` passes requirement, video,
name and position validation, its publisher "Nobody" resolves to no player,
and create fails with `NotFound` leaving `dbOne` unchanged. -/
theorem create_unresolvable_actor_not_found_witness :
    Demon.validate_requirement draftNoPublisher.requirement = Except.ok () ∧
    validateVideoOpt draftNoPublisher.video = Except.ok none ∧
    Demon.validate_name draftNoPublisher.name dbOne = Except.ok () ∧
    Demon.validate_position draftNoPublisher.position dbOne = Except.ok () ∧
    findPlayerByName dbOne draftNoPublisher.publisher = none ∧
    Demon.create_from draftNoPublisher dbOne = (Except.error Error.notFound, dbOne) :=
  ⟨by decide, by decide, by decide, by decide, by decide,
    create_unresolvable_actor_not_found draftNoPublisher dbOne (by decide)
      ⟨none, by decide⟩ (by decide) (by decide) (Or.inl (by decide))⟩

/-- Shifting does not change the number of rows. -/
theorem shift_down_length (p : Int) (db : DB) :
    (Demon.shift_down p db).demons.length = db.demons.length := by
  simp [Demon.shift_down]

/-- Claim C4: on a successful create at position `p = data.position` (where
the shift runs inside the transaction strictly before the new row is
written), every pre-existing entry with active position `q ≥ p` ends at
`q + 1`, every pre-existing entry with position `q < p` is unchanged, and
the new row itself sits at position `p` (it is written after the shift and
not shifted). -/
theorem create_shifts_preexisting (data : PostDemon) (db : DB) (dem : Demon)
    (db1 : DB) (h : Demon.create_from data db = (Except.ok dem, db1))
    (i : Nat) (hi : i < db.demons.length) (q : Int)
    (hq : db.demons[i].position = some q) :
    (∃ hi2 : i < db1.demons.length,
      db1.demons[i] =
        (if data.position ≤ q then
          { db.demons[i] with position := some (q + 1) }
        else db.demons[i])) ∧
    ∃ hn : db.demons.length < db1.demons.length,
      (db1.demons[db.demons.length]).position = some data.position := by
  obtain ⟨vn, row, hv, hdv, hdn, hdp, hrowpos, hrowvid, hrown, hrowid, hd⟩ :=
    create_success_shape data db dem db1 h
  have hlenA : (Demon.shift_down data.position db).demons.length = db.demons.length :=
    shift_down_length data.position db
  have hlen : db1.demons.length = db.demons.length + 1 := by
    rw [hd, List.length_append, hlenA]
    rfl
  constructor
  · have hi2 : i < db1.demons.length := by omega
    refine ⟨hi2, ?_⟩
    have hiA : i < (Demon.shift_down data.position db).demons.length := by omega
    have h1 : db1.demons[i] = (Demon.shift_down data.position db).demons[i] := by
      simp only [hd]
      rw [List.getElem_append_left hiA]
    rw [h1]
    show (db.demons.map (fun d =>
      match d.position with
      | some q0 => if data.position ≤ q0 then { d with position := some (q0 + 1) } else d
      | none => d))[i] = _
    rw [List.getElem_map]
    rw [hq]
  · have hn : db.demons.length < db1.demons.length := by omega
    refine ⟨hn, ?_⟩
    have h2 : db1.demons[db.demons.length] = row := by
      simp only [hd]
      rw [List.getElem_append_right (Nat.le_of_eq hlenA)]
      simp [hlenA]
    rw [h2, hrowpos]

/-- The `Demon` value `Demon::create_from` returns for `draftNew` on
`dbOne`: the video URL is the caller-supplied short form, verbatim. -/
def demNew : Demon :=
  { name := "New"
    position := 1
    requirement := 90
    video := some "https://youtu.be/abc"
    publisher := { id := 1, name := "P", link_banned := false }
    verifier := { id := 1, name := "P", link_banned := false } }

/-- The repository state after creating `draftNew` on `dbOne`: "Old" shifted
from position 1 to 2, the new row at position 1 carrying the normalized
video URL. -/
def dbAfterNew : DB :=
  { demons :=
      [{ id := 1, name := "Old", position := some 2, requirement := 50,
         verifier := 1, publisher := 1, video := none },
       { id := 2, name := "New", position := some 1, requirement := 90,
         verifier := 1, publisher := 1,
         video := some "https://www.youtube.com/watch?v=abc" }]
    players := [{ id := 1, name := "P", link_banned := false }]
    creators := []
    facts := [] }

/-- Witness for C4: creating `draftNew` at position 1 on `dbOne` shifts the
pre-existing entry "Old" (position 1 ≥ 1) to position 2 and writes the new
row at position 1. -/
theorem create_shifts_preexisting_witness :
    Demon.create_from draftNew dbOne = (Except.ok demNew, dbAfterNew) ∧
    dbOne.demons[0].position = some 1 ∧
    ((∃ hi2 : 0 < dbAfterNew.demons.length,
      dbAfterNew.demons[0] =
        (if draftNew.position ≤ 1 then
          { dbOne.demons[0] with position := some (1 + 1) }
        else dbOne.demons[0])) ∧
    ∃ hn : dbOne.demons.length < dbAfterNew.demons.length,
      (dbAfterNew.demons[dbOne.demons.length]).position = some draftNew.position) :=
  ⟨by decide, by decide,
    create_shifts_preexisting draftNew dbOne demNew dbAfterNew (by decide) 0
      (by decide) 1 (by decide)⟩

/-- Claim C9: on a successful create, the `Demon` value returned to the
caller carries the caller-supplied video URL verbatim, while the row written
to the `demons` table carries the normalized form produced by video
validation. -/
theorem create_video_verbatim_vs_normalized (data : PostDemon) (db : DB)
    (dem : Demon) (db1 : DB) (v vn2 : String)
    (h : Demon.create_from data db = (Except.ok dem, db1))
    (hvideo : data.video = some v) (hval : video.validate v = Except.ok vn2) :
    dem.video = some v ∧
    ∃ hn : db.demons.length < db1.demons.length,
      (db1.demons[db.demons.length]).video = some vn2 := by
  obtain ⟨vn, row, hv, hdv, hdn, hdp, hrowpos, hrowvid, hrown, hrowid, hd⟩ :=
    create_success_shape data db dem db1 h
  have hvn : vn = some vn2 := by
    rw [hvideo] at hv
    simp only [validateVideoOpt, hval, Except.map] at hv
    rw [Except.ok.injEq] at hv
    exact hv.symm
  have hlenA : (Demon.shift_down data.position db).demons.length = db.demons.length :=
    shift_down_length data.position db
  have hlen : db1.demons.length = db.demons.length + 1 := by
    rw [hd, List.length_append, hlenA]
    rfl
  constructor
  · rw [hdv, hvideo]
  · have hn : db.demons.length < db1.demons.length := by omega
    refine ⟨hn, ?_⟩
    have h2 : db1.demons[db.demons.length] = row := by
      simp only [hd]
      rw [List.getElem_append_right (Nat.le_of_eq hlenA)]
      simp [hlenA]
    rw [h2, hrowvid, hvn]

/-- Witness for C9: creating `draftNew` on `dbOne` returns a `Demon` value
carrying the short-form URL verbatim while the stored row carries the
normalized long form — and the two differ. -/
theorem create_video_verbatim_vs_normalized_witness :
    Demon.create_from draftNew dbOne = (Except.ok demNew, dbAfterNew) ∧
    draftNew.video = some "https://youtu.be/abc" ∧
    video.validate "https://youtu.be/abc" =
      Except.ok "https://www.youtube.com/watch?v=abc" ∧
    ("https://youtu.be/abc" : String) ≠ "https://www.youtube.com/watch?v=abc" ∧
    (demNew.video = some "https://youtu.be/abc" ∧
      ∃ hn : dbOne.demons.length < dbAfterNew.demons.length,
        (dbAfterNew.demons[dbOne.demons.length]).video =
          some "https://www.youtube.com/watch?v=abc") :=
  ⟨by decide, by decide, by decide, by decide,
    create_video_verbatim_vs_normalized draftNew dbOne demNew dbAfterNew
      "https://youtu.be/abc" "https://www.youtube.com/watch?v=abc" (by decide)
      (by decide) (by decide)⟩

end Pointercrate
